import Mathlib

/-!
Shallow embedding of the chunked sheet-export pipeline (`src/index.js`, with
the variant in `src/unnamed/part_000`): chunk planning, the 429-retry fetch
wrapper, Promise.all collection, the sort of results by `startRow`, and the
Telegram album (media array) assembly.
-/

namespace SheetExport

/-- A planned row chunk, `{ startRow, endRow }` as pushed by the chunk
building loop in `main`. -/
structure Chunk where
  startRow : Nat
  endRow : Nat
deriving Repr, DecidableEq

/-- The chunk building loop of `main`:
`while (startRow <= lastRow) { endRow = min(startRow + MAX_ROWS_PER_FILE - 1, lastRow); push {startRow, endRow}; startRow = endRow + 1 }`,
embedded as a recursion on the loop variable `startRow`.
The source loop does not terminate when `MAX_ROWS_PER_FILE = 0`, so the
guard also requires `0 < maxRowsPerFile`; every claim assumes
`maxRowsPerChunk ≥ 1`, where the two coincide. -/
def buildChunksFrom (lastRow maxRowsPerFile startRow : Nat) : List Chunk :=
  if h : startRow ≤ lastRow ∧ 0 < maxRowsPerFile then
    let endRow := min (startRow + maxRowsPerFile - 1) lastRow
    { startRow := startRow, endRow := endRow } :: buildChunksFrom lastRow maxRowsPerFile (endRow + 1)
  else
    []
termination_by lastRow + 1 - startRow
decreasing_by
  obtain ⟨h1, h2⟩ := h
  omega

/-- The whole planner: the loop starts at `startRow = 1`. -/
def buildChunks (lastRow maxRowsPerFile : Nat) : List Chunk :=
  buildChunksFrom lastRow maxRowsPerFile 1

/-- The error observed by the `catch` branch of `fetchPdfWithRetry`:
`err.response.status` when a response is present (`responseStatus = some s`),
and `none` when `err.response` is absent (network-level failure). -/
structure HttpError where
  responseStatus : Option Nat
deriving Repr, DecidableEq

/-- `fetchPdfWithRetry(url, headers, attempt)`, embedded with the network
modelled as `op : Nat → Except HttpError α` giving the outcome of the
attempt with counter `attempt` (the source increments the counter by one per
invocation, so the counter numbers the invocations `1, 2, 3, ...`).
Returns the propagated result together with the number of invocations of
`op` performed.  The retry guard is the source's
`err.response && err.response.status === 429 && attempt < 5`. -/
def fetchPdfWithRetryFrom {α : Type} (op : Nat → Except HttpError α) (attempt : Nat) :
    Except HttpError α × Nat :=
  match op attempt with
  | .ok v => (.ok v, 1)
  | .error e =>
    if h : e.responseStatus = some 429 ∧ attempt < 5 then
      let r := fetchPdfWithRetryFrom op (attempt + 1)
      (r.1, r.2 + 1)
    else
      (.error e, 1)
termination_by 5 - attempt
decreasing_by
  obtain ⟨-, h2⟩ := h
  omega

/-- The exported entry point: the source calls `fetchPdfWithRetry(url, headers)`
with the default `attempt = 1`. -/
def fetchPdfWithRetry {α : Type} (op : Nat → Except HttpError α) :
    Except HttpError α × Nat :=
  fetchPdfWithRetryFrom op 1

/-- One per-chunk render result as returned by the chunk callback in `main`
(`{ path: finalPngPath, fileName, startRow: chunk.startRow }`). -/
structure RenderArtifact where
  path : String
  fileName : String
  startRow : Nat
deriving Repr, DecidableEq

/-- One step of the stable ascending insertion for
`results.sort((a, b) => a.startRow - b.startRow)`. -/
def insertByStart (a : RenderArtifact) : List RenderArtifact → List RenderArtifact
  | [] => [a]
  | b :: bs =>
    if a.startRow ≤ b.startRow then a :: b :: bs else b :: insertByStart a bs

/-- `results.sort((a, b) => a.startRow - b.startRow)`: a stable sort of the
collected results ascending by `startRow`, embedded as insertion sort. -/
def sortByStart : List RenderArtifact → List RenderArtifact
  | [] => []
  | a :: as => insertByStart a (sortByStart as)

/-- One entry of the `media` array sent to `sendMediaGroup`:
`{ type: "photo", media: attach://fileName, caption: index === 0 ? captionText : undefined }`. -/
structure MediaItem where
  type : String
  media : String
  caption : Option String
deriving Repr, DecidableEq

/-- `albumImages.map((img, index) => ...)`: maps each artifact to a media
entry, giving the caption only at `index === 0`. -/
def buildMediaFrom (captionText : String) : Nat → List RenderArtifact → List MediaItem
  | _, [] => []
  | index, img :: rest =>
    { type := "photo", media := "attach://" ++ img.fileName,
      caption := if index = 0 then some captionText else none }
      :: buildMediaFrom captionText (index + 1) rest

/-- The `media` array built from the (sorted) album images. -/
def buildMedia (albumImages : List RenderArtifact) (captionText : String) : List MediaItem :=
  buildMediaFrom captionText 0 albumImages

/-- The single outbound `sendMediaGroup` payload: the form carries the chat
id, the JSON `media` array, and one file attachment per album image. -/
structure AlbumPayload where
  chatId : String
  media : List MediaItem
  attachments : List String
deriving Repr, DecidableEq

/-- Assembly of the single album form from the sorted images and the
caption text, as done before the one `axios.post(.../sendMediaGroup, ...)`. -/
def assembleAlbum (chatId : String) (albumImages : List RenderArtifact)
    (captionText : String) : AlbumPayload :=
  { chatId := chatId
    media := buildMedia albumImages captionText
    attachments := albumImages.map (·.fileName) }

/-- A terminal failure of one chunk's render: either the export fetch
(propagated out of `fetchPdfWithRetry`) or the PDF→PNG conversion. -/
inductive RenderError
  | fetch (e : HttpError)
  | conversion (message : String)
deriving Repr, DecidableEq

/-- `Promise.all` over the settled per-chunk outcomes: succeeds with the
list of all values only when every render succeeded, and otherwise rejects
with a failing render's error. -/
def promiseAll {ε α : Type} : List (Except ε α) → Except ε (List α)
  | [] => .ok []
  | .error e :: _ => .error e
  | .ok a :: rest => (promiseAll rest).map (a :: ·)

/-- The tail of `main`'s per-sheet body, from the settled chunk renders on:
`const results = await Promise.all(promises); results.sort(...);` then the
album assembly and the single `sendMediaGroup` call.  A `.error` result
means the run failed before the delivery call was made. -/
def runSheetDelivery (chatId captionText : String)
    (renders : List (Except RenderError RenderArtifact)) :
    Except RenderError AlbumPayload :=
  match promiseAll renders with
  | .error e => .error e
  | .ok results => .ok (assembleAlbum chatId (sortByStart results) captionText)

/-- `Covers lastRow s cs`: the chunk list `cs` exactly and contiguously
covers the row interval `[s, lastRow]` — the first chunk starts at `s`,
every chunk satisfies `startRow ≤ endRow ≤ lastRow`, each chunk starts
right after the previous one ends, and the rows run out exactly at
`lastRow`. -/
def Covers (lastRow : Nat) : Nat → List Chunk → Prop
  | s, [] => s = lastRow + 1
  | s, c :: cs =>
    c.startRow = s ∧ s ≤ c.endRow ∧ c.endRow ≤ lastRow ∧ Covers lastRow (c.endRow + 1) cs

/-- Adjacent chunks are seamless: each chunk after the first starts at its
predecessor's `endRow + 1`. -/
def Chained : List Chunk → Prop
  | [] => True
  | [_] => True
  | a :: b :: rest => b.startRow = a.endRow + 1 ∧ Chained (b :: rest)

theorem buildChunksFrom_eq_cons (lastRow m startRow : Nat)
    (h : startRow ≤ lastRow ∧ 0 < m) :
    buildChunksFrom lastRow m startRow =
      ⟨startRow, min (startRow + m - 1) lastRow⟩ ::
        buildChunksFrom lastRow m (min (startRow + m - 1) lastRow + 1) := by
  rw [buildChunksFrom]
  simp [h]

theorem buildChunksFrom_eq_nil (lastRow m startRow : Nat)
    (h : ¬(startRow ≤ lastRow ∧ 0 < m)) :
    buildChunksFrom lastRow m startRow = [] := by
  rw [buildChunksFrom]
  simp [h]

theorem buildChunksFrom_covers (lastRow m startRow : Nat) (hm : 0 < m)
    (hs : startRow ≤ lastRow + 1) :
    Covers lastRow startRow (buildChunksFrom lastRow m startRow) := by
  induction startRow using buildChunksFrom.induct lastRow m with
  | case1 x h e ih =>
    rw [buildChunksFrom_eq_cons lastRow m x h]
    refine ⟨rfl, ?_, ?_, ih ?_⟩ <;> simp only [e] <;> omega
  | case2 x h =>
    rw [buildChunksFrom_eq_nil lastRow m x h]
    show x = lastRow + 1
    omega

theorem Covers.mem_bounds {lastRow s : Nat} {cs : List Chunk}
    (h : Covers lastRow s cs) :
    ∀ c ∈ cs, s ≤ c.startRow ∧ c.startRow ≤ c.endRow ∧ c.endRow ≤ lastRow := by
  induction cs generalizing s with
  | nil => intro c hc; cases hc
  | cons a as ih =>
    obtain ⟨ha, hle, hl, htail⟩ := h
    intro c hc
    rcases List.mem_cons.mp hc with rfl | hc
    · exact ⟨by omega, by omega, hl⟩
    · have := ih htail c hc
      omega

theorem Covers.chained {lastRow s : Nat} {cs : List Chunk}
    (h : Covers lastRow s cs) : Chained cs := by
  induction cs generalizing s with
  | nil => trivial
  | cons a as ih =>
    obtain ⟨ha, hle, hl, htail⟩ := h
    cases as with
    | nil => trivial
    | cons b bs =>
      exact ⟨htail.1.trans rfl, ih htail⟩

theorem Covers.getLast_end {lastRow s : Nat} {cs : List Chunk}
    (h : Covers lastRow s cs) :
    ∀ c, cs.getLast? = some c → c.endRow = lastRow := by
  induction cs generalizing s with
  | nil => intro c hc; cases hc
  | cons a as ih =>
    obtain ⟨ha, hle, hl, htail⟩ := h
    intro c hc
    cases as with
    | nil =>
      simp only [List.getLast?_singleton, Option.some.injEq] at hc
      subst hc
      have h1 : a.endRow + 1 = lastRow + 1 := htail
      omega
    | cons b bs =>
      rw [List.getLast?_cons_cons] at hc
      exact ih htail c hc

theorem Covers.head_start {lastRow s : Nat} {c : Chunk} {cs : List Chunk}
    (h : Covers lastRow s (c :: cs)) : c.startRow = s :=
  h.1

theorem Covers.ne_nil {lastRow s : Nat} {cs : List Chunk}
    (h : Covers lastRow s cs) (hs : s ≤ lastRow) : cs ≠ [] := by
  cases cs with
  | nil => have : s = lastRow + 1 := h; omega
  | cons a as => simp

theorem Covers.pairwise_disjoint {lastRow s : Nat} {cs : List Chunk}
    (h : Covers lastRow s cs) :
    cs.Pairwise (fun a b => a.endRow < b.startRow) := by
  induction cs generalizing s with
  | nil => exact List.Pairwise.nil
  | cons a as ih =>
    obtain ⟨ha, hle, hl, htail⟩ := h
    refine List.pairwise_cons.mpr ⟨?_, ih htail⟩
    intro c hc
    have := htail.mem_bounds c hc
    omega

theorem buildChunksFrom_length (lastRow m : Nat) (hm : 0 < m) :
    ∀ fuel startRow, lastRow + 1 - startRow ≤ fuel → startRow ≤ lastRow →
      (buildChunksFrom lastRow m startRow).length = (lastRow - startRow + m) / m := by
  intro fuel
  induction fuel with
  | zero => intro s h1 h2; omega
  | succ n ih =>
    intro s h1 h2
    rw [buildChunksFrom_eq_cons lastRow m s ⟨h2, hm⟩]
    by_cases hlast : lastRow ≤ s + m - 1
    · have hM : min (s + m - 1) lastRow = lastRow := by omega
      rw [hM, buildChunksFrom_eq_nil lastRow m (lastRow + 1) (by omega)]
      have h3 : (lastRow - s) / m = 0 := Nat.div_eq_of_lt (by omega)
      have h4 := Nat.add_div_right (lastRow - s) hm
      simp only [List.length_cons, List.length_nil]
      omega
    · have hM : min (s + m - 1) lastRow = s + m - 1 := by omega
      rw [hM]
      have h5 : (buildChunksFrom lastRow m (s + m - 1 + 1)).length
          = (lastRow - (s + m - 1 + 1) + m) / m := ih (s + m - 1 + 1) (by omega) (by omega)
      have h6 : lastRow - (s + m - 1 + 1) + m = lastRow - s := by omega
      rw [List.length_cons, h5, h6]
      have h7 := Nat.add_div_right (lastRow - s) hm
      omega

theorem buildChunksFrom_sizes (lastRow m : Nat) (hm : 0 < m) :
    ∀ fuel startRow, lastRow + 1 - startRow ≤ fuel → startRow ≤ lastRow →
      (∀ c ∈ (buildChunksFrom lastRow m startRow).dropLast,
        c.endRow + 1 - c.startRow = m) ∧
      (∀ c, (buildChunksFrom lastRow m startRow).getLast? = some c →
        1 ≤ c.endRow + 1 - c.startRow ∧ c.endRow + 1 - c.startRow ≤ m) := by
  intro fuel
  induction fuel with
  | zero => intro s h1 h2; omega
  | succ n ih =>
    intro s h1 h2
    rw [buildChunksFrom_eq_cons lastRow m s ⟨h2, hm⟩]
    by_cases hlast : lastRow ≤ s + m - 1
    · have hM : min (s + m - 1) lastRow = lastRow := by omega
      rw [hM, buildChunksFrom_eq_nil lastRow m (lastRow + 1) (by omega)]
      constructor
      · intro c hc
        simp at hc
      · intro c hc
        simp only [List.getLast?_singleton, Option.some.injEq] at hc
        subst hc
        show 1 ≤ lastRow + 1 - s ∧ lastRow + 1 - s ≤ m
        omega
    · have hM : min (s + m - 1) lastRow = s + m - 1 := by omega
      rw [hM, buildChunksFrom_eq_cons lastRow m (s + m - 1 + 1) ⟨by omega, hm⟩]
      obtain ⟨htail1, htail2⟩ := ih (s + m - 1 + 1) (by omega) (by omega)
      rw [buildChunksFrom_eq_cons lastRow m (s + m - 1 + 1) ⟨by omega, hm⟩] at htail1 htail2
      constructor
      · intro c hc
        rw [List.dropLast_cons₂] at hc
        rcases List.mem_cons.mp hc with rfl | hc
        · show s + m - 1 + 1 - s = m
          omega
        · exact htail1 c hc
      · intro c hc
        rw [List.getLast?_cons_cons] at hc
        exact htail2 c hc

theorem fetchPdfWithRetryFrom_ok {α : Type} (op : Nat → Except HttpError α)
    (attempt : Nat) (v : α) (hop : op attempt = .ok v) :
    fetchPdfWithRetryFrom op attempt = (.ok v, 1) := by
  rw [fetchPdfWithRetryFrom, hop]

theorem fetchPdfWithRetryFrom_retry {α : Type} (op : Nat → Except HttpError α)
    (attempt : Nat) (e : HttpError) (hop : op attempt = .error e)
    (h429 : e.responseStatus = some 429) (hlt : attempt < 5) :
    fetchPdfWithRetryFrom op attempt =
      ((fetchPdfWithRetryFrom op (attempt + 1)).1,
        (fetchPdfWithRetryFrom op (attempt + 1)).2 + 1) := by
  rw [fetchPdfWithRetryFrom, hop]
  simp [h429, hlt]

theorem fetchPdfWithRetryFrom_stop {α : Type} (op : Nat → Except HttpError α)
    (attempt : Nat) (e : HttpError) (hop : op attempt = .error e)
    (h : ¬(e.responseStatus = some 429 ∧ attempt < 5)) :
    fetchPdfWithRetryFrom op attempt = (.error e, 1) := by
  rw [fetchPdfWithRetryFrom, hop]
  simp [h]

theorem fetchPdfWithRetryFrom_count_le {α : Type} (op : Nat → Except HttpError α) :
    ∀ fuel attempt, 5 - attempt ≤ fuel → attempt ≤ 5 →
      (fetchPdfWithRetryFrom op attempt).2 ≤ 6 - attempt := by
  intro fuel
  induction fuel with
  | zero =>
    intro attempt h1 h2
    have ha : attempt = 5 := by omega
    subst ha
    cases hop : op 5 with
    | ok v => rw [fetchPdfWithRetryFrom_ok op 5 v hop]
    | error e =>
      rw [fetchPdfWithRetryFrom_stop op 5 e hop (by omega)]
  | succ n ih =>
    intro attempt h1 h2
    cases hop : op attempt with
    | ok v =>
      rw [fetchPdfWithRetryFrom_ok op attempt v hop]
      omega
    | error e =>
      by_cases hg : e.responseStatus = some 429 ∧ attempt < 5
      · rw [fetchPdfWithRetryFrom_retry op attempt e hop hg.1 hg.2]
        have := ih (attempt + 1) (by omega) (by omega)
        simp only []
        omega
      · rw [fetchPdfWithRetryFrom_stop op attempt e hop hg]
        omega

theorem insertByStart_perm (a : RenderArtifact) (l : List RenderArtifact) :
    (insertByStart a l).Perm (a :: l) := by
  induction l with
  | nil => exact List.Perm.refl _
  | cons b bs ih =>
    rw [insertByStart]
    by_cases h : a.startRow ≤ b.startRow
    · rw [if_pos h]
    · rw [if_neg h]
      exact (ih.cons b).trans (List.Perm.swap a b bs)

theorem insertByStart_sorted (a : RenderArtifact) (l : List RenderArtifact)
    (h : l.Pairwise (fun x y => x.startRow ≤ y.startRow)) :
    (insertByStart a l).Pairwise (fun x y => x.startRow ≤ y.startRow) := by
  induction l with
  | nil => simp [insertByStart]
  | cons b bs ih =>
    obtain ⟨hb, hbs⟩ := List.pairwise_cons.mp h
    rw [insertByStart]
    by_cases hab : a.startRow ≤ b.startRow
    · rw [if_pos hab]
      refine List.pairwise_cons.mpr ⟨?_, h⟩
      intro c hc
      rcases List.mem_cons.mp hc with rfl | hc
      · exact hab
      · exact hab.trans (hb c hc)
    · rw [if_neg hab]
      refine List.pairwise_cons.mpr ⟨?_, ih hbs⟩
      intro c hc
      have hc' : c ∈ a :: bs := (insertByStart_perm a bs).mem_iff.mp hc
      rcases List.mem_cons.mp hc' with rfl | hc'
      · omega
      · exact hb c hc'

theorem sortByStart_perm (l : List RenderArtifact) : (sortByStart l).Perm l := by
  induction l with
  | nil => exact List.Perm.refl _
  | cons a as ih =>
    rw [sortByStart]
    exact (insertByStart_perm a (sortByStart as)).trans (ih.cons a)

theorem sortByStart_sorted (l : List RenderArtifact) :
    (sortByStart l).Pairwise (fun x y => x.startRow ≤ y.startRow) := by
  induction l with
  | nil => simp [sortByStart]
  | cons a as ih =>
    rw [sortByStart]
    exact insertByStart_sorted a (sortByStart as) ih

theorem sorted_strict_unique {l₁ l₂ : List RenderArtifact}
    (hperm : l₁.Perm l₂)
    (h1 : l₁.Pairwise (fun a b => a.startRow < b.startRow))
    (h2 : l₂.Pairwise (fun a b => a.startRow < b.startRow)) : l₁ = l₂ :=
  @List.eq_of_perm_of_sorted _ _
    ⟨fun _ _ hab hba => (Nat.lt_asymm hab hba).elim⟩ _ _ hperm h1 h2

theorem promiseAll_ok_cons {ε α : Type} (a : α) (rest : List (Except ε α)) :
    promiseAll (.ok a :: rest) = (promiseAll rest).map (a :: ·) := rfl

theorem promiseAll_error_of_mem {ε α : Type} (l : List (Except ε α)) (e : ε)
    (hmem : Except.error e ∈ l) : ∃ e', promiseAll l = .error e' := by
  induction l with
  | nil => cases hmem
  | cons x xs ih =>
    cases x with
    | error e0 => exact ⟨e0, rfl⟩
    | ok a =>
      rcases List.mem_cons.mp hmem with h | h
      · exact absurd h (by simp)
      · obtain ⟨e', he'⟩ := ih h
        refine ⟨e', ?_⟩
        rw [promiseAll_ok_cons, he']
        rfl

theorem buildMediaFrom_caption_none (captionText : String)
    (imgs : List RenderArtifact) :
    ∀ index, 0 < index →
      ∀ mitem ∈ buildMediaFrom captionText index imgs, mitem.caption = none := by
  induction imgs with
  | nil => intro index _ mitem hmem; cases hmem
  | cons a as ih =>
    intro index hpos mitem hmem
    rw [buildMediaFrom] at hmem
    rcases List.mem_cons.mp hmem with rfl | hmem
    · show (if index = 0 then some captionText else none) = none
      rw [if_neg (by omega)]
    · exact ih (index + 1) (by omega) mitem hmem

theorem buildMediaFrom_length (captionText : String) (imgs : List RenderArtifact) :
    ∀ index, (buildMediaFrom captionText index imgs).length = imgs.length := by
  induction imgs with
  | nil => intro index; rfl
  | cons a as ih =>
    intro index
    rw [buildMediaFrom, List.length_cons, List.length_cons, ih]

/-- Claim C1, counterexample: with `lastRow = 45`, `maxRowsPerChunk = 40`,
the planner returns the two chunks `[1,40]`, `[41,45]` and not the single
merged chunk `[1,45]` — the code has no trailing-merge pass at all. -/
theorem planner_no_merge_counterexample :
    buildChunks 45 40 ≠ [{ startRow := 1, endRow := 45 }] ∧
    (buildChunks 45 40).length = 2 := by
  have h : buildChunks 45 40 =
      [{ startRow := 1, endRow := 40 }, { startRow := 41, endRow := 45 }] := by
    simp [buildChunks, buildChunksFrom]
  rw [h]
  exact ⟨by decide, rfl⟩

/-- Claim C1, amended: the chunk building loop performs no merge of an
undersized trailing chunk (there is no `mergeThreshold` in the code); with
`lastRow = 45`, `maxRowsPerChunk = 40` it produces exactly the two chunks
`[1,40]` and `[41,45]`, keeping the trailing chunk of size 5. -/
theorem planner_no_merge :
    buildChunks 45 40 =
      [{ startRow := 1, endRow := 40 }, { startRow := 41, endRow := 45 }] := by
  simp [buildChunks, buildChunksFrom]

/-- Claim C2: for every `lastRow ≥ 1` and `maxRowsPerChunk ≥ 1` the planned
chunks exactly and disjointly cover `[1, lastRow]`: the sequence is
nonempty, its first chunk starts at row 1, every chunk satisfies
`startRow ≤ endRow ≤ lastRow`, each chunk starts at its predecessor's
`endRow + 1`, the last chunk ends at `lastRow`, and the chunks are in
ascending order with no gaps or overlaps. -/
theorem planner_covers (lastRow m : Nat) (hl : 1 ≤ lastRow) (hm : 1 ≤ m) :
    buildChunks lastRow m ≠ [] ∧
    (∀ c cs, buildChunks lastRow m = c :: cs → c.startRow = 1) ∧
    (∀ c ∈ buildChunks lastRow m, c.startRow ≤ c.endRow ∧ c.endRow ≤ lastRow) ∧
    Chained (buildChunks lastRow m) ∧
    (∀ c, (buildChunks lastRow m).getLast? = some c → c.endRow = lastRow) ∧
    (buildChunks lastRow m).Pairwise (fun a b => a.endRow < b.startRow) := by
  have hcov : Covers lastRow 1 (buildChunks lastRow m) :=
    buildChunksFrom_covers lastRow m 1 hm (by omega)
  refine ⟨hcov.ne_nil hl, ?_, ?_, hcov.chained, hcov.getLast_end,
    hcov.pairwise_disjoint⟩
  · intro c cs hc
    have h' := hcov
    rw [hc] at h'
    exact h'.head_start
  · intro c hc
    have := hcov.mem_bounds c hc
    omega

/-- Witness for C2 at `lastRow = 45`, `maxRowsPerChunk = 40`. -/
theorem planner_covers_witness :
    buildChunks 45 40 ≠ [] ∧
    (∀ c cs, buildChunks 45 40 = c :: cs → c.startRow = 1) ∧
    (∀ c ∈ buildChunks 45 40, c.startRow ≤ c.endRow ∧ c.endRow ≤ 45) ∧
    Chained (buildChunks 45 40) ∧
    (∀ c, (buildChunks 45 40).getLast? = some c → c.endRow = 45) ∧
    (buildChunks 45 40).Pairwise (fun a b => a.endRow < b.startRow) :=
  planner_covers 45 40 (by decide) (by decide)

/-- Claim C3: if the export call returns 429 on exactly its first two
invocations and succeeds on the third, `fetchPdfWithRetry` returns that
success after exactly 3 invocations; if every invocation returns 429, it
makes exactly 5 invocations and propagates the failure; and for any
operation whatsoever (`spare`) it never makes more than 5 invocations. -/
theorem retry_policy {α : Type} (op op' spare : Nat → Except HttpError α)
    (v : α) (e : HttpError)
    (h1 : op 1 = .error { responseStatus := some 429 })
    (h2 : op 2 = .error { responseStatus := some 429 })
    (h3 : op 3 = .ok v)
    (hall : ∀ n, op' n = .error e) (he : e.responseStatus = some 429) :
    fetchPdfWithRetry op = (.ok v, 3) ∧
    fetchPdfWithRetry op' = (.error e, 5) ∧
    (fetchPdfWithRetry spare).2 ≤ 5 := by
  refine ⟨?_, ?_, ?_⟩
  · have s3 : fetchPdfWithRetryFrom op 3 = (.ok v, 1) :=
      fetchPdfWithRetryFrom_ok op 3 v h3
    have s2 : fetchPdfWithRetryFrom op 2 = (.ok v, 2) := by
      rw [fetchPdfWithRetryFrom_retry op 2 _ h2 rfl (by omega), s3]
    show fetchPdfWithRetryFrom op 1 = (.ok v, 3)
    rw [fetchPdfWithRetryFrom_retry op 1 _ h1 rfl (by omega), s2]
  · have s5 : fetchPdfWithRetryFrom op' 5 = (.error e, 1) :=
      fetchPdfWithRetryFrom_stop op' 5 e (hall 5) (fun hco => absurd hco.2 (by omega))
    have s4 : fetchPdfWithRetryFrom op' 4 = (.error e, 2) := by
      rw [fetchPdfWithRetryFrom_retry op' 4 e (hall 4) he (by omega), s5]
    have s3 : fetchPdfWithRetryFrom op' 3 = (.error e, 3) := by
      rw [fetchPdfWithRetryFrom_retry op' 3 e (hall 3) he (by omega), s4]
    have s2 : fetchPdfWithRetryFrom op' 2 = (.error e, 4) := by
      rw [fetchPdfWithRetryFrom_retry op' 2 e (hall 2) he (by omega), s3]
    show fetchPdfWithRetryFrom op' 1 = (.error e, 5)
    rw [fetchPdfWithRetryFrom_retry op' 1 e (hall 1) he (by omega), s2]
  · exact fetchPdfWithRetryFrom_count_le spare 4 1 (by omega) (by omega)

/-- Witness for C3: two 429s then success, an always-429 operation, and an
immediately-succeeding operation. -/
theorem retry_policy_witness :
    fetchPdfWithRetry
        (fun n => if n ≤ 2 then .error { responseStatus := some 429 } else .ok 7)
      = (.ok 7, 3) ∧
    fetchPdfWithRetry
        (fun _ => (.error { responseStatus := some 429 } : Except HttpError Nat))
      = (.error { responseStatus := some 429 }, 5) ∧
    (fetchPdfWithRetry (fun _ => (.ok 0 : Except HttpError Nat))).2 ≤ 5 :=
  retry_policy _ _ _ 7 { responseStatus := some 429 }
    rfl rfl rfl (fun _ => rfl) rfl

/-- Claim C4: a failure whose HTTP status is not 429 (a 500, or a failure
with no response at all) is propagated after a single invocation, with
zero retries. -/
theorem non429_propagates_immediately {α : Type} (op : Nat → Except HttpError α)
    (e : HttpError) (h1 : op 1 = .error e)
    (hne : e.responseStatus ≠ some 429) :
    fetchPdfWithRetry op = (.error e, 1) :=
  fetchPdfWithRetryFrom_stop op 1 e h1 (fun hco => absurd hco.1 hne)

/-- Witness for C4 at a constant 500 failure. -/
theorem non429_propagates_immediately_witness :
    fetchPdfWithRetry
        (fun _ => (.error { responseStatus := some 500 } : Except HttpError Nat))
      = (.error { responseStatus := some 500 }, 1) :=
  non429_propagates_immediately _ { responseStatus := some 500 } rfl (by decide)

/-- Claim C5: whatever order the chunk renders complete in (any permutation
`completed` of the planned artifact list), the sort by `startRow` restores
exactly the planned (original row) order, and its output is ascending by
`startRow`. -/
theorem delivery_order_eq_plan_order (planned completed : List RenderArtifact)
    (hperm : completed.Perm planned)
    (hasc : planned.Pairwise (fun a b => a.startRow < b.startRow)) :
    sortByStart completed = planned ∧
    (sortByStart completed).Pairwise (fun a b => a.startRow ≤ b.startRow) := by
  have hsorted := sortByStart_sorted completed
  have hperm' : (sortByStart completed).Perm planned :=
    (sortByStart_perm completed).trans hperm
  have hnodup : (planned.map (·.startRow)).Pairwise (· ≠ ·) :=
    (List.pairwise_map).mpr (hasc.imp fun h => Nat.ne_of_lt h)
  have hmapperm : ((sortByStart completed).map (·.startRow)).Perm
      (planned.map (·.startRow)) := hperm'.map _
  have hnodup' : ((sortByStart completed).map (·.startRow)).Pairwise (· ≠ ·) :=
    hmapperm.symm.nodup hnodup
  have hne : (sortByStart completed).Pairwise
      (fun a b => a.startRow ≠ b.startRow) := (List.pairwise_map).mp hnodup'
  have hlt : (sortByStart completed).Pairwise
      (fun a b => a.startRow < b.startRow) :=
    (hsorted.and hne).imp fun h => Nat.lt_of_le_of_ne h.1 h.2
  exact ⟨sorted_strict_unique hperm' hlt hasc, hsorted⟩

/-- Witness for C5: chunks `[1,40]`, `[41,80]`, `[81,90]` completing in
reverse order still sort back to the planned order. -/
theorem delivery_order_eq_plan_order_witness :
    sortByStart (List.reverse
        [{ path := "a", fileName := "a.png", startRow := 1 },
         { path := "b", fileName := "b.png", startRow := 41 },
         { path := "c", fileName := "c.png", startRow := 81 }]) =
      [{ path := "a", fileName := "a.png", startRow := 1 },
       { path := "b", fileName := "b.png", startRow := 41 },
       { path := "c", fileName := "c.png", startRow := 81 }] ∧
    (sortByStart (List.reverse
        [{ path := "a", fileName := "a.png", startRow := 1 },
         { path := "b", fileName := "b.png", startRow := 41 },
         { path := "c", fileName := "c.png", startRow := 81 }])).Pairwise
      (fun a b => a.startRow ≤ b.startRow) :=
  delivery_order_eq_plan_order _ _ (List.reverse_perm _) (by decide)

/-- Claim C6: if any chunk's render settles with a terminal error (fetch or
conversion), the per-sheet run fails before the album is assembled: the
result of the delivery stage is an error and no `sendMediaGroup` payload is
ever produced. -/
theorem chunk_failure_no_delivery (chatId captionText : String)
    (renders : List (Except RenderError RenderArtifact)) (e : RenderError)
    (hmem : Except.error e ∈ renders) :
    ∃ e', runSheetDelivery chatId captionText renders = Except.error e' := by
  obtain ⟨e', he'⟩ := promiseAll_error_of_mem renders e hmem
  refine ⟨e', ?_⟩
  unfold runSheetDelivery
  rw [he']

/-- Witness for C6: the second of three chunk renders fails conversion. -/
theorem chunk_failure_no_delivery_witness :
    ∃ e', runSheetDelivery "chat" "caption"
        [.ok { path := "a", fileName := "a.png", startRow := 1 },
         .error (.conversion "PNG conversion failed"),
         .ok { path := "c", fileName := "c.png", startRow := 81 }]
      = Except.error e' :=
  chunk_failure_no_delivery "chat" "caption" _
    (.conversion "PNG conversion failed") (by simp)

/-- Claim C7, counterexample: at `lastRow = 0` (that is, `lastRow < 1`) the
planner raises no error at all — the loop body never runs and the empty
chunk sequence is returned; the code has no `InvalidRangeError` and no
error path in the chunk building loop. -/
theorem invalid_range_counterexample : buildChunks 0 40 = [] := by
  simp [buildChunks, buildChunksFrom]

/-- Claim C7, amended: for every `lastRow < 1` the planner silently returns
the empty chunk sequence instead of failing. -/
theorem planner_below_one_empty (lastRow m : Nat) (h : lastRow < 1) :
    buildChunks lastRow m = [] := by
  unfold buildChunks
  exact buildChunksFrom_eq_nil lastRow m 1 (by omega)

/-- Witness for the amended C7 at `lastRow = 0`, `maxRowsPerChunk = 7`. -/
theorem planner_below_one_empty_witness : buildChunks 0 7 = [] :=
  planner_below_one_empty 0 7 (by decide)

/-- Claim C8: for a nonempty ordered result list, the assembled album gives
the caption to exactly the first media entry (whose artifact has the
smallest `startRow` when the list is ascending), every other entry carries
no caption, and all artifacts are bundled into the one payload: one media
entry and one attachment per artifact. -/
theorem album_caption_first_only (chatId captionText : String)
    (first : RenderArtifact) (rest : List RenderArtifact)
    (hsorted : (first :: rest).Pairwise (fun a b => a.startRow ≤ b.startRow)) :
    ∃ ms, (assembleAlbum chatId (first :: rest) captionText).media =
        { type := "photo", media := "attach://" ++ first.fileName,
          caption := some captionText } :: ms ∧
      (∀ mitem ∈ ms, mitem.caption = none) ∧
      (∀ a ∈ first :: rest, first.startRow ≤ a.startRow) ∧
      (assembleAlbum chatId (first :: rest) captionText).media.length =
        (first :: rest).length ∧
      (assembleAlbum chatId (first :: rest) captionText).attachments =
        (first :: rest).map (·.fileName) := by
  refine ⟨buildMediaFrom captionText 1 rest, rfl, ?_, ?_, ?_, rfl⟩
  · exact buildMediaFrom_caption_none captionText rest 1 (by omega)
  · intro a ha
    rcases List.mem_cons.mp ha with rfl | ha
    · exact Nat.le_refl _
    · exact (List.pairwise_cons.mp hsorted).1 a ha
  · exact buildMediaFrom_length captionText (first :: rest) 0

/-- Witness for C8 on a two-artifact sorted result. -/
theorem album_caption_first_only_witness :
    ∃ ms, (assembleAlbum "chat"
        [{ path := "a", fileName := "a.png", startRow := 1 },
         { path := "b", fileName := "b.png", startRow := 41 }] "caption").media =
        { type := "photo", media := "attach://" ++ "a.png",
          caption := some "caption" } :: ms ∧
      (∀ mitem ∈ ms, mitem.caption = none) ∧
      (∀ a ∈ [{ path := "a", fileName := "a.png", startRow := 1 },
              ({ path := "b", fileName := "b.png", startRow := 41 } :
                RenderArtifact)], (1 : Nat) ≤ a.startRow) ∧
      (assembleAlbum "chat"
        [{ path := "a", fileName := "a.png", startRow := 1 },
         { path := "b", fileName := "b.png", startRow := 41 }] "caption").media.length =
        ([{ path := "a", fileName := "a.png", startRow := 1 },
          ({ path := "b", fileName := "b.png", startRow := 41 } :
            RenderArtifact)]).length ∧
      (assembleAlbum "chat"
        [{ path := "a", fileName := "a.png", startRow := 1 },
         { path := "b", fileName := "b.png", startRow := 41 }] "caption").attachments =
        ([{ path := "a", fileName := "a.png", startRow := 1 },
          ({ path := "b", fileName := "b.png", startRow := 41 } :
            RenderArtifact)]).map (·.fileName) :=
  album_caption_first_only "chat" "caption"
    { path := "a", fileName := "a.png", startRow := 1 }
    [{ path := "b", fileName := "b.png", startRow := 41 }] (by decide)

/-- Claim C9: the planner is a pure function of its inputs — two
invocations on identical inputs return identical chunk sequences. -/
theorem planner_deterministic (lastRow₁ m₁ lastRow₂ m₂ : Nat)
    (hl : lastRow₁ = lastRow₂) (hm : m₁ = m₂) :
    buildChunks lastRow₁ m₁ = buildChunks lastRow₂ m₂ := by
  subst hl
  subst hm
  rfl

/-- Witness for C9 at `lastRow = 45`, `maxRowsPerChunk = 40`. -/
theorem planner_deterministic_witness :
    buildChunks 45 40 = buildChunks 45 40 :=
  planner_deterministic 45 40 45 40 rfl rfl

/-- Claim C10: for `lastRow ≥ 1` and `maxRowsPerChunk ≥ 1` the planner
emits exactly `⌈lastRow / maxRowsPerChunk⌉ = (lastRow + m - 1) / m` chunks;
every chunk but the last spans exactly `m` rows, the last spans between 1
and `m` rows, and in particular a trailing single-row chunk is emitted on
its own (`lastRow = 41`, `m = 40`). -/
theorem planner_count_and_sizes (lastRow m : Nat) (hl : 1 ≤ lastRow)
    (hm : 1 ≤ m) :
    (buildChunks lastRow m).length = (lastRow + m - 1) / m ∧
    (∀ c ∈ (buildChunks lastRow m).dropLast, c.endRow + 1 - c.startRow = m) ∧
    (∀ c, (buildChunks lastRow m).getLast? = some c →
      1 ≤ c.endRow + 1 - c.startRow ∧ c.endRow + 1 - c.startRow ≤ m) ∧
    buildChunks 41 40 =
      [{ startRow := 1, endRow := 40 }, { startRow := 41, endRow := 41 }] := by
  obtain ⟨hsz1, hsz2⟩ :=
    buildChunksFrom_sizes lastRow m hm (lastRow + 1) 1 (by omega) hl
  have hlen := buildChunksFrom_length lastRow m hm (lastRow + 1) 1 (by omega) hl
  refine ⟨?_, hsz1, hsz2, ?_⟩
  · unfold buildChunks
    rw [hlen]
    congr 1
    omega
  · simp [buildChunks, buildChunksFrom]

/-- Witness for C10 at `lastRow = 45`, `maxRowsPerChunk = 40`. -/
theorem planner_count_and_sizes_witness :
    (buildChunks 45 40).length = (45 + 40 - 1) / 40 ∧
    (∀ c ∈ (buildChunks 45 40).dropLast, c.endRow + 1 - c.startRow = 40) ∧
    (∀ c, (buildChunks 45 40).getLast? = some c →
      1 ≤ c.endRow + 1 - c.startRow ∧ c.endRow + 1 - c.startRow ≤ 40) ∧
    buildChunks 41 40 =
      [{ startRow := 1, endRow := 40 }, { startRow := 41, endRow := 41 }] :=
  planner_count_and_sizes 45 40 (by decide) (by decide)

end SheetExport
